import Mathlib

/-!
# Verification of the metapdf metadata-extraction pipeline

A shallow embedding of `metapdf.py`: PDF-version sniffing from the first
eight bytes of a file, metadata-record construction from a parsed document
information dictionary, semicolon-delimited CSV serialization, and the
directory-walking aggregator.  Python strings are modelled as lists of
Unicode code points (`List Char`), file contents as lists of bytes
(`List Nat`), and the external PDF library as an abstract parse outcome
carried alongside the file's bytes.
-/

set_option maxRecDepth 4000

deriving instance DecidableEq for Except

namespace Metapdf

/-- A Python `str`: a sequence of Unicode code points. -/
abbrev PyStr := List Char

/-- Embed a Lean string literal as a Python string. -/
def pstr (s : String) : PyStr := s.toList

/-- Embed an ASCII string literal as file bytes. -/
def pbytes (s : String) : List Nat := s.toList.map Char.toNat

/-- ASCII lower-casing of one code point.  Python's `str.lower` performs the
full Unicode case mapping, but no code point outside the ASCII range
lower-cases to `.`, `c`, `s` or `v`, so for the suffix tests below the ASCII
mapping is an exact model. -/
def lowerChar (c : Char) : Char :=
  if 'A' ≤ c ∧ c ≤ 'Z' then Char.ofNat (c.toNat + 32) else c

/-- Python `s.lower()`, restricted to the ASCII case mapping (see
`lowerChar`). -/
def pyLower (s : PyStr) : PyStr := s.map lowerChar

/-- Model of `ensure_csv_extension` from `metapdf.py`: append `.csv` when
`outputfile_name.lower()` does not already end with `.csv`. -/
def ensure_csv_extension (outputfile_name : PyStr) : PyStr :=
  if pstr ".csv" <:+ pyLower outputfile_name then outputfile_name
  else outputfile_name ++ pstr ".csv"

/-- The spec's notion "the name ends in `.csv` case-insensitively": the name
splits off a four-character tail whose lower-casing is `.csv`. -/
def endsCsvCaseInsensitive (name : PyStr) : Prop :=
  ∃ front tail, name = front ++ tail ∧ tail.map lowerChar = pstr ".csv"

theorem pyLower_csv_suffix_iff (name : PyStr) :
    (pstr ".csv" <:+ pyLower name) ↔ endsCsvCaseInsensitive name := by
  constructor
  · rintro ⟨t, ht⟩
    rcases List.map_eq_append_iff.mp ht.symm with ⟨front, tail, hsplit, _, htail⟩
    exact ⟨front, tail, hsplit, htail⟩
  · rintro ⟨front, tail, rfl, htail⟩
    exact ⟨front.map lowerChar, by simp [pyLower, htail]⟩

/-- C10: `ensure_csv_extension` appends `.csv` exactly when the name does not
already end in `.csv` case-insensitively, and otherwise returns the name
unchanged (no case normalization). -/
theorem ensure_csv_extension_spec (name : PyStr) :
    (endsCsvCaseInsensitive name → ensure_csv_extension name = name) ∧
    (¬ endsCsvCaseInsensitive name →
      ensure_csv_extension name = name ++ pstr ".csv") := by
  constructor
  · intro h
    rw [ensure_csv_extension, if_pos ((pyLower_csv_suffix_iff name).mpr h)]
  · intro h
    rw [ensure_csv_extension,
      if_neg (fun hs => h ((pyLower_csv_suffix_iff name).mp hs))]

/-- Concrete instances of C10: `"report"` gains the extension and
`"Report.CSV"` is left untouched. -/
theorem ensure_csv_extension_spec_witness :
    ensure_csv_extension (pstr "report") = pstr "report.csv" ∧
    ensure_csv_extension (pstr "Report.CSV") = pstr "Report.CSV" := by
  constructor
  · have h := (ensure_csv_extension_spec (pstr "report")).2
    rw [h]
    · rfl
    · intro hc
      have hs := (pyLower_csv_suffix_iff (pstr "report")).mpr hc
      revert hs
      decide
  · exact (ensure_csv_extension_spec (pstr "Report.CSV")).1
      ⟨pstr "Report", pstr ".CSV", by decide, by decide⟩

/-! ## Version Sniffer

`extract_pdf_version` reads the first eight bytes of the file and decodes
them with Python's strict UTF-8 codec; a decode failure raises a
`UnicodeDecodeError`, modelled here as `Except.error`. -/

/-- A UTF-8 continuation byte. -/
def isCont (b : Nat) : Bool := 0x80 ≤ b && b ≤ 0xBF

/-- Admissible first continuation byte of a three-byte sequence with lead
byte `b` (the strict codec excludes overlong forms and surrogates). -/
def cont1Range3 (b b1 : Nat) : Bool :=
  if b = 0xE0 then 0xA0 ≤ b1 && b1 ≤ 0xBF
  else if b = 0xED then 0x80 ≤ b1 && b1 ≤ 0x9F
  else isCont b1

/-- Admissible first continuation byte of a four-byte sequence with lead
byte `b` (excludes overlong forms and code points above `0x10FFFF`). -/
def cont1Range4 (b b1 : Nat) : Bool :=
  if b = 0xF0 then 0x90 ≤ b1 && b1 ≤ 0xBF
  else if b = 0xF4 then 0x80 ≤ b1 && b1 ≤ 0x8F
  else isCont b1

/-- Strict UTF-8 decoding (Python `bytes.decode('utf-8')`), with recursion
bounded by a fuel argument.  Every step consumes at least one byte, so fuel
equal to the byte count (as supplied by `utf8Decode`) never runs out; the
`0, _ :: _` branch is unreachable there. -/
def utf8DecodeFuel : Nat → List Nat → Option PyStr
  | _, [] => some []
  | 0, _ :: _ => none
  | fuel + 1, b :: rest =>
    if b ≤ 0x7F then
      (utf8DecodeFuel fuel rest).map (fun cs => Char.ofNat b :: cs)
    else if 0xC2 ≤ b && b ≤ 0xDF then
      match rest with
      | b1 :: rest1 =>
        if isCont b1 then
          (utf8DecodeFuel fuel rest1).map
            (fun cs => Char.ofNat ((b - 0xC0) * 0x40 + (b1 - 0x80)) :: cs)
        else none
      | [] => none
    else if 0xE0 ≤ b && b ≤ 0xEF then
      match rest with
      | b1 :: b2 :: rest2 =>
        if cont1Range3 b b1 && isCont b2 then
          (utf8DecodeFuel fuel rest2).map
            (fun cs =>
              Char.ofNat ((b - 0xE0) * 0x1000 + (b1 - 0x80) * 0x40 + (b2 - 0x80)) :: cs)
        else none
      | _ => none
    else if 0xF0 ≤ b && b ≤ 0xF4 then
      match rest with
      | b1 :: b2 :: b3 :: rest3 =>
        if cont1Range4 b b1 && isCont b2 && isCont b3 then
          (utf8DecodeFuel fuel rest3).map
            (fun cs =>
              Char.ofNat ((b - 0xF0) * 0x40000 + (b1 - 0x80) * 0x1000 +
                (b2 - 0x80) * 0x40 + (b3 - 0x80)) :: cs)
        else none
      | _ => none
    else none

/-- Python `bytes.decode('utf-8')`: `some` decoded code points, or `none`
for a `UnicodeDecodeError` (invalid or truncated sequence). -/
def utf8Decode (l : List Nat) : Option PyStr := utf8DecodeFuel l.length l

theorem utf8DecodeFuel_length :
    ∀ (fuel : Nat) (l : List Nat) (cs : PyStr),
      utf8DecodeFuel fuel l = some cs → cs.length ≤ l.length := by
  intro fuel
  induction fuel with
  | zero =>
    intro l cs h
    cases l with
    | nil =>
      simp only [utf8DecodeFuel, Option.some.injEq] at h
      simp [← h]
    | cons b rest => exact Option.noConfusion h
  | succ n ih =>
    intro l cs h
    cases l with
    | nil =>
      simp only [utf8DecodeFuel, Option.some.injEq] at h
      simp [← h]
    | cons b rest =>
      simp only [utf8DecodeFuel] at h
      repeat' split at h
      all_goals
        first
          | exact Option.noConfusion h
          | (rcases Option.map_eq_some'.mp h with ⟨cs', hcs', rfl⟩
             have hl := ih _ _ hcs'
             simp only [List.length_cons]
             omega)

theorem utf8Decode_length (l : List Nat) (cs : PyStr)
    (h : utf8Decode l = some cs) : cs.length ≤ l.length :=
  utf8DecodeFuel_length _ _ _ h

/-- A code point stripped by Python's `str.strip()` (the Unicode whitespace
set used by CPython). -/
def isPySpace (c : Char) : Bool :=
  ([0x09, 0x0A, 0x0B, 0x0C, 0x0D, 0x1C, 0x1D, 0x1E, 0x1F, 0x20, 0x85, 0xA0,
      0x1680, 0x2028, 0x2029, 0x202F, 0x205F, 0x3000] : List Nat).contains c.toNat
    || (0x2000 ≤ c.toNat && c.toNat ≤ 0x200A)

/-- Python `s.strip()`: remove leading and trailing whitespace. -/
def pyStrip (s : PyStr) : PyStr :=
  ((s.dropWhile isPySpace).reverse.dropWhile isPySpace).reverse

/-- Model of `extract_pdf_version` from `metapdf.py`.  The filesystem is abstracted
by passing the file's contents; `f.read(8)` is `contents.take 8`.  The
`decode('utf-8')` call is not guarded by any handler inside this function,
so a decode failure is an `Except.error` (the raised `UnicodeDecodeError`,
abstracted to its type name). -/
def extract_pdf_version (contents : List Nat) : Except PyStr PyStr :=
  match utf8Decode (contents.take 8) with
  | none => .error (pstr "UnicodeDecodeError")
  | some header =>
    if (pstr "%PDF-").isPrefixOf header then .ok (pyStrip (header.drop 5))
    else .ok (pstr "unknown")

/-- C2: the claim that `extract_pdf_version` never propagates an exception
fails on the code: a file whose first byte is `0xFF` (never valid UTF-8)
makes `f.read(8).decode('utf-8')` raise a `UnicodeDecodeError`, which
propagates out of the function instead of yielding `"unknown"`. -/
theorem extract_pdf_version_decode_error :
    extract_pdf_version [0xFF] = Except.error (pstr "UnicodeDecodeError") := by
  decide

/-- C9: whenever the first eight bytes decode to text beginning with the
five-character signature `%PDF-`, the sniffer returns the remainder (at most
three characters, since the five signature characters consume five of the
eight bytes) with surrounding whitespace stripped. -/
theorem extract_pdf_version_signature (contents : List Nat) (header : PyStr)
    (hdec : utf8Decode (contents.take 8) = some header)
    (hsig : (pstr "%PDF-").isPrefixOf header = true) :
    extract_pdf_version contents = Except.ok (pyStrip (header.drop 5)) ∧
    (header.drop 5).length ≤ 3 := by
  constructor
  · simp [extract_pdf_version, hdec, hsig]
  · have h1 := utf8Decode_length _ _ hdec
    have h2 : (contents.take 8).length ≤ 8 := by
      simp [List.length_take]
    simp only [List.length_drop]
    omega

/-- Instance of C9 at a concrete file: header bytes `%PDF-1.4` followed by
further content yield the version string `1.4`. -/
theorem extract_pdf_version_signature_witness :
    extract_pdf_version (pbytes "%PDF-1.4 then arbitrary trailing content") =
      Except.ok (pstr "1.4") := by
  have h := extract_pdf_version_signature
    (pbytes "%PDF-1.4 then arbitrary trailing content") (pstr "%PDF-1.4")
    (by decide) (by decide)
  exact h.1.trans (by decide)

/-! ## Metadata Extractor

`extract_metadata` hands the file to the opaque PDF library, reads the
document information fields, and builds the metadata dict.  The library is
modelled by the parse outcome carried in `PdfFile`. -/

/-- A Python `datetime` value, as returned by the PDF library's
`creation_date` and `modification_date` accessors. -/
structure PyDatetime where
  year : Nat
  month : Nat
  day : Nat
  hour : Nat
  minute : Nat
  second : Nat
deriving DecidableEq

/-- A value stored in a metadata record: a Python `str`, or the `datetime`
object the library returns for the date accessors. -/
inductive PyVal where
  | str (s : PyStr)
  | datetime (d : PyDatetime)
deriving DecidableEq

/-- Decimal rendering of a natural number, as Python `str(n)`. -/
def natStr (n : Nat) : PyStr := (toString n).toList

/-- Zero-pad a decimal rendering to width `w`. -/
def padZero (w : Nat) (n : Nat) : PyStr :=
  List.replicate (w - (natStr n).length) '0' ++ natStr n

/-- Python `str(datetime(...))`: `YYYY-MM-DD HH:MM:SS` (microseconds and
time zone omitted from the model). -/
def pyDatetimeStr (d : PyDatetime) : PyStr :=
  padZero 4 d.year ++ pstr "-" ++ padZero 2 d.month ++ pstr "-" ++
    padZero 2 d.day ++ pstr " " ++ padZero 2 d.hour ++ pstr ":" ++
    padZero 2 d.minute ++ pstr ":" ++ padZero 2 d.second

/-- Python `str(value)` as applied by the CSV writer to a cell value:
strings pass through, other objects are rendered. -/
def pyValStr : PyVal → PyStr
  | .str s => s
  | .datetime d => pyDatetimeStr d

/-- Whether a record value is a Python `str`. -/
def isStrVal : PyVal → Bool
  | .str _ => true
  | .datetime _ => false

/-- The document information object (`reader.metadata`).  The named
accessors yield optional text fields; `creation_date` and
`modification_date` yield optional `datetime` values, per the PDF library's
API; `raw` backs the dictionary-style `info.get(key, default)` lookups used
for the vendor extension keys. -/
structure DocInfo where
  title : Option PyStr
  author : Option PyStr
  creator : Option PyStr
  creation_date : Option PyDatetime
  modification_date : Option PyDatetime
  subject : Option PyStr
  producer : Option PyStr
  raw : List (PyStr × PyVal)

/-- A file on disk: its bytes, together with the outcome of handing it to
the opaque PDF parsing library — the document information object, or the
message of whatever exception the library raised (corrupt file, unreadable
stream, unsupported encryption, ...). -/
structure PdfFile where
  bytes : List Nat
  parse : Except PyStr DocInfo

/-- A metadata record: a Python `dict` in insertion order. -/
abbrev Record := List (PyStr × PyVal)

/-- The keys of a record, in order. -/
def recordKeys (r : Record) : List PyStr := r.map Prod.fst

/-- Python `dict` lookup on an insertion-ordered association list. -/
def rlookup (r : Record) (k : PyStr) : Option PyVal :=
  match r with
  | [] => none
  | kv :: rest => if kv.1 = k then some kv.2 else rlookup rest k

/-- Python `info.get(key, '')`: the stored value, or the empty string default. -/
def infoGet (info : DocInfo) (k : PyStr) : PyVal :=
  (rlookup info.raw k).getD (PyVal.str [])

/-- Python `x if x else ''` for an optional string accessor: absent (`None`) and
empty both yield the empty string. -/
def strField (o : Option PyStr) : PyVal := PyVal.str (o.getD [])

/-- Python `x if x else ''` for an optional datetime accessor: `datetime` objects
are always truthy, so a present date is stored as the object itself. -/
def dateField : Option PyDatetime → PyVal
  | some d => PyVal.datetime d
  | none => PyVal.str []

/-- The fixed ten-field list, in the dict literal's insertion order. -/
def fieldNames : List PyStr :=
  [pstr "Title", pstr "Author", pstr "Creator", pstr "Created",
   pstr "Modified", pstr "Subject", pstr "Keywords", pstr "Description",
   pstr "Producer", pstr "PDF Version"]

/-- The dict literal built inside `extract_metadata`. -/
def buildRecord (info : DocInfo) (version : PyStr) : Record :=
  [(pstr "Title", strField info.title),
   (pstr "Author", strField info.author),
   (pstr "Creator", strField info.creator),
   (pstr "Created", dateField info.creation_date),
   (pstr "Modified", dateField info.modification_date),
   (pstr "Subject", strField info.subject),
   (pstr "Keywords", infoGet info (pstr "/Keywords")),
   (pstr "Description", infoGet info (pstr "/Description")),
   (pstr "Producer", strField info.producer),
   (pstr "PDF Version", PyVal.str version)]

/-- The body of `extract_metadata`'s `try` block: construct the reader and
read `reader.metadata`, then build the dict; the version sniffer runs while
the dict literal is evaluated (its entry comes last), so its
`UnicodeDecodeError` also escapes to the same handler. -/
def extract_metadata_body (f : PdfFile) : Except PyStr Record :=
  match f.parse with
  | .error e => .error e
  | .ok info =>
    match extract_pdf_version f.bytes with
    | .error e => .error e
    | .ok version => .ok (buildRecord info version)

/-- Model of `extract_metadata` from `metapdf.py`: the record or `None`, paired with
the lines printed to standard output (the `except` handler prints one
diagnostic line and returns `None`). -/
def extract_metadata (pdf_path : PyStr) (f : PdfFile) :
    Option Record × List PyStr :=
  match extract_metadata_body f with
  | .ok r => (some r, [])
  | .error e =>
    (none, [pstr "Error processing file " ++ pdf_path ++ pstr ": " ++ e])

/-- C1: for every path and file, `extract_metadata` never propagates an
exception: it yields either a record (printing nothing) or `None`, in which
case the single printed line is `Error processing file {path}: {error}`. -/
theorem extract_metadata_never_raises (pdf_path : PyStr) (f : PdfFile) :
    (∃ r, extract_metadata pdf_path f = (some r, [])) ∨
    (∃ e, extract_metadata pdf_path f =
      (none, [pstr "Error processing file " ++ pdf_path ++ pstr ": " ++ e])) := by
  cases hb : extract_metadata_body f with
  | ok r => exact Or.inl ⟨r, by simp [extract_metadata, hb]⟩
  | error e => exact Or.inr ⟨e, by simp [extract_metadata, hb]⟩

/-- A creation/modification date as the library returns it. -/
def dtSample : PyDatetime := ⟨2020, 1, 2, 3, 4, 5⟩

/-- An info object for a PDF whose `/CreationDate` and `/ModDate` are set. -/
def infoWithDates : DocInfo :=
  ⟨none, none, none, some dtSample, some dtSample, none, none, []⟩

/-- A file that parses successfully and carries the dates above. -/
def fileWithDates : PdfFile := ⟨pbytes "%PDF-1.4", .ok infoWithDates⟩

/-- C3: the claim that every successful record maps all ten fields to
string values fails on the code: when `creation_date` is present, the
`Created` entry holds the `datetime` object itself (contradicting the
function's own `Dict[str, str]` annotation); it is stringified only later,
by the CSV writer. -/
theorem extract_metadata_created_not_str :
    extract_metadata (pstr "dated.pdf") fileWithDates =
      (some (buildRecord infoWithDates (pstr "1.4")), []) ∧
    rlookup (buildRecord infoWithDates (pstr "1.4")) (pstr "Created") =
      some (PyVal.datetime dtSample) ∧
    isStrVal ((rlookup (buildRecord infoWithDates (pstr "1.4"))
      (pstr "Created")).getD (PyVal.str [])) = false := by
  refine ⟨by decide, by decide, by decide⟩

/-- C4: for every file the library parses successfully (and whose header
bytes decode, so that the version sniffer returns rather than raises —
the separate decode defect covered under the version sniffer), a record is
always produced, it has exactly the ten fixed keys in order, and every
absent (`None`) info field is mapped to the empty string; no combination of
missing individual fields makes the record fail. -/
theorem extract_metadata_absent_fields_empty (pdf_path : PyStr) (f : PdfFile)
    (info : DocInfo) (version : PyStr)
    (hp : f.parse = Except.ok info)
    (hv : extract_pdf_version f.bytes = Except.ok version) :
    extract_metadata pdf_path f = (some (buildRecord info version), []) ∧
    recordKeys (buildRecord info version) = fieldNames ∧
    (info.title = none →
      rlookup (buildRecord info version) (pstr "Title") =
        some (PyVal.str [])) ∧
    (info.author = none →
      rlookup (buildRecord info version) (pstr "Author") =
        some (PyVal.str [])) ∧
    (info.creator = none →
      rlookup (buildRecord info version) (pstr "Creator") =
        some (PyVal.str [])) ∧
    (info.creation_date = none →
      rlookup (buildRecord info version) (pstr "Created") =
        some (PyVal.str [])) ∧
    (info.modification_date = none →
      rlookup (buildRecord info version) (pstr "Modified") =
        some (PyVal.str [])) ∧
    (info.subject = none →
      rlookup (buildRecord info version) (pstr "Subject") =
        some (PyVal.str [])) ∧
    (rlookup info.raw (pstr "/Keywords") = none →
      rlookup (buildRecord info version) (pstr "Keywords") =
        some (PyVal.str [])) ∧
    (rlookup info.raw (pstr "/Description") = none →
      rlookup (buildRecord info version) (pstr "Description") =
        some (PyVal.str [])) ∧
    (info.producer = none →
      rlookup (buildRecord info version) (pstr "Producer") =
        some (PyVal.str [])) := by
  have hbody : extract_metadata_body f = Except.ok (buildRecord info version) := by
    simp [extract_metadata_body, hp, hv]
  refine ⟨by simp [extract_metadata, hbody], rfl, ?_, ?_, ?_, ?_, ?_, ?_, ?_, ?_, ?_⟩
  · intro h
    rw [show rlookup (buildRecord info version) (pstr "Title") =
      some (strField info.title) from rfl, h]
    rfl
  · intro h
    rw [show rlookup (buildRecord info version) (pstr "Author") =
      some (strField info.author) from rfl, h]
    rfl
  · intro h
    rw [show rlookup (buildRecord info version) (pstr "Creator") =
      some (strField info.creator) from rfl, h]
    rfl
  · intro h
    rw [show rlookup (buildRecord info version) (pstr "Created") =
      some (dateField info.creation_date) from rfl, h]
    rfl
  · intro h
    rw [show rlookup (buildRecord info version) (pstr "Modified") =
      some (dateField info.modification_date) from rfl, h]
    rfl
  · intro h
    rw [show rlookup (buildRecord info version) (pstr "Subject") =
      some (strField info.subject) from rfl, h]
    rfl
  · intro h
    rw [show rlookup (buildRecord info version) (pstr "Keywords") =
      some (infoGet info (pstr "/Keywords")) from rfl, infoGet, h]
    rfl
  · intro h
    rw [show rlookup (buildRecord info version) (pstr "Description") =
      some (infoGet info (pstr "/Description")) from rfl, infoGet, h]
    rfl
  · intro h
    rw [show rlookup (buildRecord info version) (pstr "Producer") =
      some (strField info.producer) from rfl, h]
    rfl

/-- An info object with every field absent. -/
def infoEmpty : DocInfo := ⟨none, none, none, none, none, none, none, []⟩

/-- A parseable file carrying no metadata at all. -/
def fileEmptyInfo : PdfFile := ⟨pbytes "%PDF-1.7", .ok infoEmpty⟩

/-- Instance of C4: a PDF with an entirely empty info dictionary still
yields a record, with `Author` (and every other field) equal to `""`. -/
theorem extract_metadata_absent_fields_empty_witness :
    extract_metadata (pstr "empty.pdf") fileEmptyInfo =
      (some (buildRecord infoEmpty (pstr "1.7")), []) ∧
    rlookup (buildRecord infoEmpty (pstr "1.7")) (pstr "Author") =
      some (PyVal.str []) := by
  have h := extract_metadata_absent_fields_empty (pstr "empty.pdf")
    fileEmptyInfo infoEmpty (pstr "1.7") rfl (by decide)
  exact ⟨h.1, h.2.2.2.1 rfl⟩

/-! ## Table Writer

`write_csv` drives `csv.DictWriter` with delimiter `;`.  The csv module's
defaults apply: minimal quoting (a field containing the delimiter, the
quote character, or a character of the line terminator is wrapped in quotes
with inner quotes doubled) and the `\r\n` line terminator, written verbatim
because the file is opened with `newline=''`. -/

/-- A character that forces minimal quoting: the `;` delimiter, the quote
character, or a character of the `\r\n` line terminator. -/
def forcesQuote (c : Char) : Bool :=
  c = ';' || c = '\"' || c = '\r' || c = '\n'

/-- Double each quote character (csv quote escaping). -/
def escapeQuotes (s : PyStr) : PyStr :=
  s.flatMap (fun c => if c = '\"' then ['\"', '\"'] else [c])

/-- Minimal quoting of one rendered field value. -/
def quoteField (s : PyStr) : PyStr :=
  if s.any forcesQuote then '\"' :: (escapeQuotes s ++ ['\"']) else s

/-- Join rendered fields with a separator (the csv writer puts the
delimiter between consecutive fields). -/
def joinSep (sep : PyStr) : List PyStr → PyStr
  | [] => []
  | [x] => x
  | x :: xs => x ++ sep ++ joinSep sep xs

/-- One physical CSV row for the given (unquoted) field values: each field
quoted as needed, joined with `;`; a row of one single empty field is
written as `\x22\x22` (the csv module's disambiguation of an empty row —
never reached here, since rows always carry ten fields). -/
def csvRowFields (fields : List PyStr) : PyStr :=
  if fields = [[]] then ['\"', '\"']
  else joinSep (pstr ";") (fields.map quoteField)

/-- A row plus the writer's `\r\n` line terminator. -/
def csvLine (fields : List PyStr) : PyStr := csvRowFields fields ++ pstr "\r\n"

/-- The cell rendered for header key `k` of `row`: the stored value via
`str()`, or the empty rendering of the `None` restval for a missing key. -/
def renderField (row : Record) (k : PyStr) : PyStr :=
  match rlookup row k with
  | some v => pyValStr v
  | none => []

/-- Model of `csv.DictWriter._dict_to_list` with the default `extrasaction='raise'`:
a row key outside the header raises `ValueError`; missing keys fall back to
the `None` restval, rendered as an empty cell. -/
def dictToList (fieldnames : List PyStr) (row : Record) :
    Except PyStr (List PyStr) :=
  if ∀ kv ∈ row, kv.1 ∈ fieldnames then
    .ok (fieldnames.map (renderField row))
  else .error (pstr "ValueError")

/-- Serialize the data rows in order; a `ValueError` from a row's key check
aborts the write (the partially written file is not modelled, only the
raised error). -/
def writeRows (fieldnames : List PyStr) : List Record → Except PyStr PyStr
  | [] => .ok []
  | r :: rs =>
    match dictToList fieldnames r with
    | .error e => .error e
    | .ok fields =>
      match writeRows fieldnames rs with
      | .error e => .error e
      | .ok rest => .ok (csvLine fields ++ rest)

/-- Model of `write_csv` from `metapdf.py`: `none` when the record list is empty
(the guard `if metadata_list:` fails, so `open` is never called — no file
is created and an existing file is left untouched); otherwise the full new
contents of the output file, or the raised `ValueError`.  The header comes
from the first record's keys. -/
def write_csv (metadata_list : List Record) (output_file_name : PyStr) :
    Option (Except PyStr PyStr) :=
  match metadata_list with
  | [] => none
  | first :: _ =>
    let keys := recordKeys first
    some (match writeRows keys metadata_list with
      | .error e => .error e
      | .ok rows => .ok (csvLine keys ++ rows))

/-- The contents reaching the disk, when a write happened cleanly. -/
def writtenContent (w : Option (Except PyStr PyStr)) : PyStr :=
  match w with
  | some (.ok c) => c
  | _ => []

/-- C7: with an empty record sequence the Table Writer writes nothing at
all, for every output path. -/
theorem write_csv_empty_writes_nothing (output_file_name : PyStr) :
    write_csv [] output_file_name = none := rfl

/-- Split a character stream at each `\r\n` terminator: `n` terminators
yield `n + 1` pieces, so text that is exactly `k` terminated lines yields
`k` pieces followed by one empty piece. -/
def splitCRLF : PyStr → List PyStr
  | [] => [[]]
  | [c] => [[c]]
  | c :: d :: rest =>
    if c = '\r' ∧ d = '\n' then [] :: splitCRLF rest
    else
      match splitCRLF (d :: rest) with
      | [] => [[c]]
      | l :: ls => (c :: l) :: ls

/-- Whether a stream contains the two-character terminator `\r\n`. -/
def hasCRLF : PyStr → Bool
  | [] => false
  | [_] => false
  | c :: d :: rest => (c = '\r' && d = '\n') || hasCRLF (d :: rest)

theorem hasCRLF_eq_false_of_no_cr (s : PyStr)
    (h : ∀ c ∈ s, c ≠ '\r') : hasCRLF s = false := by
  induction s with
  | nil => rfl
  | cons c rest ih =>
    cases rest with
    | nil => rfl
    | cons d rest' =>
      have hc : c ≠ '\r' := h c (by simp)
      have hrest : hasCRLF (d :: rest') = false :=
        ih (fun x hx => h x (by simp [hx]))
      simp [hasCRLF, hc, hrest]

theorem splitCRLF_append (line rest : PyStr) (h : hasCRLF line = false) :
    splitCRLF (line ++ '\r' :: '\n' :: rest) = line :: splitCRLF rest := by
  induction line with
  | nil => simp [splitCRLF]
  | cons c line' ih =>
    cases line' with
    | nil => simp [splitCRLF]
    | cons d line'' =>
      have hcd : ¬ (c = '\r' ∧ d = '\n') := by
        intro hc
        simp [hasCRLF, hc.1, hc.2] at h
      have htail : hasCRLF (d :: line'') = false := by
        simp only [hasCRLF, Bool.or_eq_false_iff] at h
        exact h.2
      have ih' := ih htail
      simp only [List.cons_append] at ih' ⊢
      rw [splitCRLF, if_neg hcd, ih']

theorem splitCRLF_join_lines (lines : List PyStr)
    (h : ∀ l ∈ lines, hasCRLF l = false) :
    splitCRLF ((lines.map (fun l => l ++ pstr "\r\n")).flatten) =
      lines ++ [[]] := by
  induction lines with
  | nil => simp [splitCRLF]
  | cons l ls ih =>
    have h1 : hasCRLF l = false := h l (by simp)
    have h2 := ih (fun x hx => h x (by simp [hx]))
    simp only [List.map_cons, List.flatten_cons, List.append_assoc]
    rw [show pstr "\r\n" ++ (ls.map (fun l => l ++ pstr "\r\n")).flatten =
      '\r' :: '\n' :: (ls.map (fun l => l ++ pstr "\r\n")).flatten from rfl]
    rw [splitCRLF_append _ _ h1, h2]
    simp

theorem mem_escapeQuotes (c : Char) (s : PyStr)
    (h : c ∈ escapeQuotes s) : c = '\"' ∨ c ∈ s := by
  rcases List.mem_flatMap.mp h with ⟨a, ha, hc⟩
  by_cases hq : a = '\"'
  · simp [hq] at hc
    exact Or.inl (by simp [hc])
  · simp [hq] at hc
    exact Or.inr (hc ▸ ha)

theorem mem_quoteField (c : Char) (s : PyStr)
    (h : c ∈ quoteField s) : c = '\"' ∨ c ∈ s := by
  rw [quoteField] at h
  split at h
  · rcases List.mem_cons.mp h with hc | hc
    · exact Or.inl hc
    · rcases List.mem_append.mp hc with hc' | hc'
      · exact mem_escapeQuotes c s hc'
      · exact Or.inl (by simpa using hc')
  · exact Or.inr h

theorem mem_joinSep (c : Char) (sep : PyStr) (L : List PyStr)
    (h : c ∈ joinSep sep L) : c ∈ sep ∨ ∃ x ∈ L, c ∈ x := by
  induction L with
  | nil => simp [joinSep] at h
  | cons x xs ih =>
    cases xs with
    | nil =>
      exact Or.inr ⟨x, by simp, by simpa [joinSep] using h⟩
    | cons y ys =>
      have hj : joinSep sep (x :: y :: ys) =
          x ++ sep ++ joinSep sep (y :: ys) := rfl
      rw [hj] at h
      rcases List.mem_append.mp h with h1 | h1
      · rcases List.mem_append.mp h1 with h2 | h2
        · exact Or.inr ⟨x, by simp, h2⟩
        · exact Or.inl h2
      · rcases ih h1 with h2 | ⟨z, hz, hc⟩
        · exact Or.inl h2
        · exact Or.inr ⟨z, by simp [hz], hc⟩

theorem hasCRLF_csvRowFields (fields : List PyStr)
    (hf : ∀ s ∈ fields, ('\r' : Char) ∉ s) :
    hasCRLF (csvRowFields fields) = false := by
  apply hasCRLF_eq_false_of_no_cr
  intro c hc hcr
  rw [csvRowFields] at hc
  split at hc
  · simp at hc
    rw [hcr] at hc
    exact absurd hc (by decide)
  · rcases mem_joinSep c _ _ hc with h1 | ⟨x, hx, hcx⟩
    · rw [hcr] at h1
      exact absurd h1 (by decide)
    · rcases List.mem_map.mp hx with ⟨s, hs, rfl⟩
      rcases mem_quoteField c s hcx with h2 | h2
      · rw [hcr] at h2
        exact absurd h2 (by decide)
      · exact hf s hs (hcr ▸ h2)

theorem rlookup_mem (r : Record) (k : PyStr) (v : PyVal)
    (h : rlookup r k = some v) : (k, v) ∈ r := by
  induction r with
  | nil => exact absurd h (by simp [rlookup])
  | cons kv rest ih =>
    rw [rlookup] at h
    split at h
    · rename_i hk
      injection h with h2
      have hkv : kv = (k, v) := by
        obtain ⟨k1, v1⟩ := kv
        simp_all
      rw [← hkv]
      exact List.mem_cons_self _ _
    · exact List.mem_cons_of_mem _ (ih h)

theorem writeRows_ok (l : List Record)
    (hkeys : ∀ r ∈ l, recordKeys r = fieldNames) :
    writeRows fieldNames l =
      Except.ok ((l.map
        (fun r => csvLine (fieldNames.map (renderField r)))).flatten) := by
  induction l with
  | nil => simp [writeRows]
  | cons r rs ih =>
    have hr : recordKeys r = fieldNames := hkeys r (by simp)
    have hall : ∀ kv ∈ r, kv.1 ∈ fieldNames := by
      intro kv hkv
      rw [← hr]
      exact List.mem_map_of_mem Prod.fst hkv
    have hd : dictToList fieldNames r =
        Except.ok (fieldNames.map (renderField r)) := by
      rw [dictToList, if_pos hall]
    rw [writeRows, hd, ih (fun x hx => hkeys x (by simp [hx]))]
    simp

/-- C6 (amended): for every nonempty list of records carrying the fixed ten
keys whose rendered values contain no carriage-return character, the writer
produces exactly N + 1 lines terminated by its `\r\n` terminator (splitting
the file at the terminator yields the N + 1 lines plus one final empty
piece): first the header — the ten field names joined with `;` — then one
minimally-quoted `;`-joined row per record, in key order.  (As stated, without
the carriage-return proviso, the claim is false: a value embedding the
terminator sequence yields extra physical lines.) -/
theorem write_csv_line_structure (l : List Record) (output_file_name : PyStr)
    (hne : l ≠ [])
    (hkeys : ∀ r ∈ l, recordKeys r = fieldNames)
    (hvals : ∀ r ∈ l, ∀ kv ∈ r, ('\r' : Char) ∉ pyValStr kv.2) :
    ∃ content,
      write_csv l output_file_name = some (Except.ok content) ∧
      splitCRLF content =
        (csvRowFields fieldNames ::
          l.map (fun r => csvRowFields (fieldNames.map (renderField r)))) ++
          [[]] ∧
      (splitCRLF content).length = l.length + 2 ∧
      csvRowFields fieldNames = pstr
        "Title;Author;Creator;Created;Modified;Subject;Keywords;Description;Producer;PDF Version" := by
  cases l with
  | nil => exact absurd rfl hne
  | cons first ls =>
    have hk1 : recordKeys first = fieldNames := hkeys first (by simp)
    have hrows := writeRows_ok (first :: ls) hkeys
    have hsplit : splitCRLF (csvLine fieldNames ++
        ((first :: ls).map
          (fun r => csvLine (fieldNames.map (renderField r)))).flatten) =
        (csvRowFields fieldNames ::
          (first :: ls).map
            (fun r => csvRowFields (fieldNames.map (renderField r)))) ++
          [[]] := by
      have hcontent : csvLine fieldNames ++
          ((first :: ls).map
            (fun r => csvLine (fieldNames.map (renderField r)))).flatten =
          ((csvRowFields fieldNames ::
            (first :: ls).map
              (fun r => csvRowFields (fieldNames.map (renderField r)))).map
                (fun s => s ++ pstr "\r\n")).flatten := by
        simp [csvLine, List.map_map, Function.comp]
        rfl
      rw [hcontent]
      apply splitCRLF_join_lines
      intro line hline
      rcases List.mem_cons.mp hline with rfl | hmem
      · decide
      · rcases List.mem_map.mp hmem with ⟨r, hr, rfl⟩
        apply hasCRLF_csvRowFields
        intro s hs
        rcases List.mem_map.mp hs with ⟨k, hkmem, rfl⟩
        cases hrl : rlookup r k with
        | none => simp [renderField, hrl]
        | some v =>
          simpa [renderField, hrl] using
            hvals r hr (k, v) (rlookup_mem r k v hrl)
    refine ⟨_, ?_, hsplit, ?_, by decide⟩
    · simp only [write_csv]
      rw [hk1, hrows]
    · rw [hsplit]
      simp

/-- A record over the fixed keys whose Title value embeds the `\r\n`
sequence. -/
def recWithNewline : Record :=
  [(pstr "Title", PyVal.str ('x' :: '\r' :: '\n' :: ['y'])),
   (pstr "Author", PyVal.str []),
   (pstr "Creator", PyVal.str []),
   (pstr "Created", PyVal.str []),
   (pstr "Modified", PyVal.str []),
   (pstr "Subject", PyVal.str []),
   (pstr "Keywords", PyVal.str []),
   (pstr "Description", PyVal.str []),
   (pstr "Producer", PyVal.str []),
   (pstr "PDF Version", PyVal.str (pstr "1.4"))]

/-- C6, as stated, is false on the code: writing the single record above
(N = 1) does not give N + 1 = 2 terminator-separated lines (3 split
pieces).  The Title value is minimally quoted, the embedded `\r\n` stays in
the file verbatim, and the file splits into 4 pieces. -/
theorem write_csv_embedded_newline_extra_lines :
    ∃ content,
      write_csv [recWithNewline] (pstr "out.csv") =
        some (Except.ok content) ∧
      ((splitCRLF content).length == 1 + 2) = false ∧
      (splitCRLF content).length = 4 :=
  ⟨_, rfl, by decide, by decide⟩

/-- A record the extractor never produces: the Title entry dropped. -/
def recMissingTitle : Record := (buildRecord infoEmpty (pstr "1.4")).drop 1

/-- C8: (a) every record `extract_metadata` returns carries exactly the
fixed ten keys in the fixed order; (b) the writer derives the header row
from the first record only, whatever follows; (c) a later record with a
smaller key set is serialized silently — no error, the missing column
rendered empty — so identical key sets are a strict precondition on
`write_csv`, and (a) is what guarantees it. -/
theorem record_batch_uniform_keys :
    (∀ (pdf_path : PyStr) (f : PdfFile) (r : Record) (printed : List PyStr),
      extract_metadata pdf_path f = (some r, printed) →
      recordKeys r = fieldNames) ∧
    (∀ (first : Record) (rest : List Record) (output_file_name : PyStr),
      ∃ res, write_csv (first :: rest) output_file_name = some res ∧
        ∀ content, res = Except.ok content →
          csvLine (recordKeys first) <+: content) ∧
    dictToList fieldNames recMissingTitle =
      Except.ok [[], [], [], [], [], [], [], [], [], pstr "1.4"] := by
  refine ⟨?_, ?_, by decide⟩
  · intro pdf_path f r printed h
    cases hp : f.parse with
    | error e => simp [extract_metadata, extract_metadata_body, hp] at h
    | ok info =>
      cases hv : extract_pdf_version f.bytes with
      | error e => simp [extract_metadata, extract_metadata_body, hp, hv] at h
      | ok version =>
        have hb : extract_metadata_body f =
            Except.ok (buildRecord info version) := by
          simp [extract_metadata_body, hp, hv]
        rw [extract_metadata, hb] at h
        simp only [Prod.mk.injEq, Option.some.injEq] at h
        rw [← h.1]
        rfl
  · intro first rest output_file_name
    cases hw : writeRows (recordKeys first) (first :: rest) with
    | error e =>
      refine ⟨Except.error e, by simp [write_csv, hw], ?_⟩
      intro content hc
      exact Except.noConfusion hc
    | ok rows =>
      refine ⟨Except.ok (csvLine (recordKeys first) ++ rows),
        by simp [write_csv, hw], ?_⟩
      intro content hc
      injection hc with hc2
      rw [← hc2]
      exact ⟨rows, rfl⟩

/-- Instance of C8: a concrete extracted record has the fixed keys, and the
file written for it starts with the header derived from those keys. -/
theorem record_batch_uniform_keys_witness :
    recordKeys (buildRecord infoEmpty (pstr "1.7")) = fieldNames ∧
    csvLine (recordKeys (buildRecord infoEmpty (pstr "1.7"))) <+:
      writtenContent
        (write_csv [buildRecord infoEmpty (pstr "1.7")] (pstr "o.csv")) := by
  constructor
  · exact record_batch_uniform_keys.1 (pstr "empty.pdf") fileEmptyInfo
      (buildRecord infoEmpty (pstr "1.7")) [] (by decide)
  · obtain ⟨res, hres, hpre⟩ := record_batch_uniform_keys.2.1
      (buildRecord infoEmpty (pstr "1.7")) [] (pstr "o.csv")
    have hval : write_csv [buildRecord infoEmpty (pstr "1.7")] (pstr "o.csv") =
        some (Except.ok (writtenContent
          (write_csv [buildRecord infoEmpty (pstr "1.7")] (pstr "o.csv")))) := by
      decide
    exact hpre _ (Option.some.inj (hres.symm.trans hval))

/-- Instance of C6 (amended): one record gives 1 + 1 terminated lines
(three split pieces). -/
theorem write_csv_line_structure_witness :
    ∃ content,
      write_csv [buildRecord infoEmpty (pstr "1.7")] (pstr "w.csv") =
        some (Except.ok content) ∧
      (splitCRLF content).length = 1 + 2 := by
  obtain ⟨content, hw, hsp, hlen, hhead⟩ := write_csv_line_structure
    [buildRecord infoEmpty (pstr "1.7")] (pstr "w.csv")
    (by simp) (by decide) (by decide)
  exact ⟨content, hw, by simpa using hlen⟩

/-! ## Aggregator

`process_directory` walks a directory tree, filters on the `.pdf` suffix
of each file's name, extracts per file, and writes one table. -/

/-- One file met by the `os.walk` traversal: its base name `file` (tested
by the filter), the joined path `os.path.join(root, file)` (used in
diagnostics), and the file itself. -/
structure WalkEntry where
  name : PyStr
  path : PyStr
  file : PdfFile

/-- The filter `file.lower().endswith('.pdf')`. -/
def isPdfName (name : PyStr) : Bool :=
  (pstr ".pdf").isSuffixOf (pyLower name)

/-- The collection loop: run `extract_metadata` on each matching file in
traversal order, keep the non-`None` records in order, and accumulate every
printed diagnostic line. -/
def collectMeta : List WalkEntry → List Record × List PyStr
  | [] => ([], [])
  | e :: es =>
    let res := extract_metadata e.path e.file
    let rest := collectMeta es
    match res.1 with
    | some m => (m :: rest.1, res.2 ++ rest.2)
    | none => (rest.1, res.2 ++ rest.2)

/-- Model of `process_directory` from `metapdf.py`: the walk is abstracted as the
list of files encountered, in traversal order.  Result: the contents
written to the output file (if any write happened) and the printed lines,
in order. -/
def process_directory (entries : List WalkEntry) (output_file_name : PyStr) :
    Option (Except PyStr PyStr) × List PyStr :=
  let collected := collectMeta (entries.filter (fun e => isPdfName e.name))
  match collected.1 with
  | [] => (none, collected.2 ++ [pstr "No pdf files found in directory."])
  | _ :: _ =>
    (write_csv collected.1 output_file_name,
     collected.2 ++ [pstr "Metadata from " ++ natStr collected.1.length ++
       pstr " files was saved in " ++ output_file_name ++ pstr "."])

theorem collectMeta_fst (l : List WalkEntry) :
    (collectMeta l).1 =
      l.filterMap (fun e => (extract_metadata e.path e.file).1) := by
  induction l with
  | nil => rfl
  | cons e es ih =>
    cases hres : (extract_metadata e.path e.file).1 with
    | some m => simp [collectMeta, List.filterMap_cons, hres, ih]
    | none => simp [collectMeta, List.filterMap_cons, hres, ih]

theorem length_filterMap_eq {α β : Type} (f : α → Option β) (l : List α) :
    (l.filterMap f).length = (l.filter (fun a => (f a).isSome)).length := by
  induction l with
  | nil => rfl
  | cons a l ih =>
    cases hfa : f a with
    | some b => simp [List.filterMap_cons, List.filter_cons, hfa, ih]
    | none => simp [List.filterMap_cons, List.filter_cons, hfa, ih]

/-- C5: when no `.pdf`-named file yields a record — none found, or every
extraction failed — directory mode prints `No pdf files found in
directory.` (after any per-file error lines) and writes no output file;
otherwise it writes the file and the success message counts exactly the
successfully parsed files, failures excluded. -/
theorem process_directory_spec (entries : List WalkEntry)
    (output_file_name : PyStr) :
    ((collectMeta (entries.filter (fun e => isPdfName e.name))).1 = [] →
      process_directory entries output_file_name =
        (none,
         (collectMeta (entries.filter (fun e => isPdfName e.name))).2 ++
           [pstr "No pdf files found in directory."])) ∧
    ((collectMeta (entries.filter (fun e => isPdfName e.name))).1 ≠ [] →
      process_directory entries output_file_name =
        (write_csv (collectMeta (entries.filter (fun e => isPdfName e.name))).1
           output_file_name,
         (collectMeta (entries.filter (fun e => isPdfName e.name))).2 ++
           [pstr "Metadata from " ++
             natStr (collectMeta
               (entries.filter (fun e => isPdfName e.name))).1.length ++
             pstr " files was saved in " ++ output_file_name ++ pstr "."]) ∧
      (write_csv (collectMeta (entries.filter (fun e => isPdfName e.name))).1
        output_file_name).isSome = true) ∧
    (collectMeta (entries.filter (fun e => isPdfName e.name))).1.length =
      ((entries.filter (fun e => isPdfName e.name)).filter
        (fun e => (extract_metadata e.path e.file).1.isSome)).length := by
  refine ⟨?_, ?_, ?_⟩
  · intro h
    simp [process_directory, h]
  · intro h
    obtain ⟨m, ms, hm⟩ := List.exists_cons_of_ne_nil h
    constructor
    · simp [process_directory, hm]
    · simp [hm, write_csv]
  · rw [collectMeta_fst, length_filterMap_eq]

/-- Instances of C5: an empty walk triggers the diagnostic with no write;
a walk meeting one parseable `.pdf` file writes the file and reports a
count of 1. -/
theorem process_directory_spec_witness :
    process_directory [] (pstr "o.csv") =
      (none, [pstr "No pdf files found in directory."]) ∧
    process_directory [⟨pstr "a.pdf", pstr "dir/a.pdf", fileEmptyInfo⟩]
        (pstr "o.csv") =
      (write_csv [buildRecord infoEmpty (pstr "1.7")] (pstr "o.csv"),
       [pstr "Metadata from 1 files was saved in o.csv."]) := by
  constructor
  · simpa using (process_directory_spec [] (pstr "o.csv")).1 rfl
  · have h := ((process_directory_spec
      [⟨pstr "a.pdf", pstr "dir/a.pdf", fileEmptyInfo⟩]
      (pstr "o.csv")).2.1 (by decide)).1
    exact h.trans (by decide)

end Metapdf
